import Mathlib

/-!
Verification of the Test-Result Intelligence Engine of
`gauge-html-report-ai` (package `pkg/ai`, `pkg/analytics`, and the storage
layer).  Go strings are modelled as `List Char`; Go `float64` arithmetic is
modelled as exact rational arithmetic over `ℚ`; the network interaction of
the LLM client is modelled as an oracle function supplied as a parameter.
-/

namespace GaugeAI

/-- Go strings, modelled as lists of characters.  Go indexes strings by
byte; this development works at character level, which coincides with the
byte level on single-byte (ASCII) characters. -/
abbrev Str := List Char

/-- ASCII lower-casing of one character, modelling `strings.ToLower` on the
ASCII range (every keyword the classifier matches against is ASCII). -/
def toLowerChar (c : Char) : Char :=
  if 'A' ≤ c ∧ c ≤ 'Z' then Char.ofNat (c.toNat + 32) else c

/-- `strings.ToLower`, restricted to the ASCII case mapping. -/
def strToLower (s : Str) : Str := s.map toLowerChar

/-- Boolean string-prefix test. -/
def isPrefixB : Str → Str → Bool
  | [], _ => true
  | _ :: _, [] => false
  | p :: ps, c :: cs => p == c && isPrefixB ps cs

/-- `strings.Contains haystack needle`: substring occurrence test. -/
def containsSub : Str → Str → Bool
  | [], p => isPrefixB p []
  | c :: t, p => isPrefixB p (c :: t) || containsSub t p

/-- The error taxonomy of `pkg/ai/analyzer.go` (`ErrorType` constants). -/
inductive ErrorType
  | assertion | timeout | network | nullPointer
  | fileSystem | database | environment | unknown
  deriving DecidableEq, Repr

/-- The string value of each `ErrorType` constant in `analyzer.go`. -/
def ErrorType.str : ErrorType → Str
  | .assertion => "Assertion Failure".toList
  | .timeout => "Timeout".toList
  | .network => "Network Error".toList
  | .nullPointer => "Null Pointer".toList
  | .fileSystem => "File System".toList
  | .database => "Database".toList
  | .environment => "Environment".toList
  | .unknown => "Unknown Error".toList

/-- `assertionPatterns` from `ClassifyError`. -/
def assertionPatterns : List Str :=
  ["assertion".toList, "assert".toList, "expected".toList, "actual".toList,
   "should be".toList, "must be".toList, "equals".toList, "not equal".toList]

/-- `networkPatterns` from `ClassifyError`. -/
def networkPatterns : List Str :=
  ["connection refused".toList, "network".toList, "socket".toList,
   "http".toList, "connection reset".toList, "connection closed".toList,
   "dns".toList]

/-- `filePatterns` from `ClassifyError`. -/
def filePatterns : List Str :=
  ["file not found".toList, "no such file".toList, "permission denied".toList,
   "directory".toList, "path".toList]

/-- `dbPatterns` from `ClassifyError`. -/
def dbPatterns : List Str :=
  ["database".toList, "sql".toList, "query".toList, "transaction".toList,
   "duplicate key".toList, "constraint".toList]

/-- `envPatterns` from `ClassifyError`. -/
def envPatterns : List Str :=
  ["environment".toList, "config".toList, "configuration".toList,
   "property".toList, "variable not set".toList]

/-- `ClassifyError` from `pkg/ai/analyzer.go`: lower-cases the concatenation
of message and stack trace (joined by a space) and tests the keyword groups
in the order they appear in the Go function. -/
def classifyError (errorMsg stackTrace : Str) : ErrorType :=
  let combined := strToLower (errorMsg ++ ' ' :: stackTrace)
  if assertionPatterns.any (fun p => containsSub combined p) then .assertion
  else if containsSub combined "timeout".toList
       || containsSub combined "timed out".toList
       || containsSub combined "deadline exceeded".toList then .timeout
  else if networkPatterns.any (fun p => containsSub combined p) then .network
  else if containsSub combined "null".toList
       || containsSub combined "nil".toList
       || containsSub combined "none".toList then .nullPointer
  else if filePatterns.any (fun p => containsSub combined p) then .fileSystem
  else if dbPatterns.any (fun p => containsSub combined p) then .database
  else if envPatterns.any (fun p => containsSub combined p) then .environment
  else .unknown

/-- The ordered keyword table of the spec (section 4.2): kind by kind, in
the documented precedence order. -/
def keywordTable : List (ErrorType × List Str) :=
  [(.assertion, assertionPatterns),
   (.timeout, ["timeout".toList, "timed out".toList, "deadline exceeded".toList]),
   (.network, networkPatterns),
   (.nullPointer, ["null".toList, "nil".toList, "none".toList]),
   (.fileSystem, filePatterns),
   (.database, dbPatterns),
   (.environment, envPatterns)]

/-- First-match-wins over an ordered keyword table: the kind of the first
entry one of whose keywords occurs in `combined`, `Unknown` otherwise. -/
def firstMatch (combined : Str) : List (ErrorType × List Str) → ErrorType
  | [] => .unknown
  | (k, pats) :: rest =>
    if pats.any (fun p => containsSub combined p) then k
    else firstMatch combined rest

/-- Modelled from the spec's words (section 4.2): test the keyword sets in
the documented order against the lower-cased concatenation of message and
stack trace; the first set with any match wins, `Unknown` when none match.
Used as the reference point that `classifyError` is proved to equal. -/
def classifySpec (errorMsg stackTrace : Str) : ErrorType :=
  firstMatch (strToLower (errorMsg ++ ' ' :: stackTrace)) keywordTable

/-- Decimal digit, the RE2 class `\d` used in `GenerateErrorSignature`. -/
def isDigitC (c : Char) : Bool := '0' ≤ c && c ≤ '9'

/-- Worker for `replaceDigits`; the flag records whether the previous
character belonged to a digit run (in which case the run's `N` token has
already been emitted). -/
def replaceDigitsAux : Str → Bool → Str
  | [], _ => []
  | c :: t, inRun =>
    if isDigitC c then
      (if inRun then replaceDigitsAux t true else 'N' :: replaceDigitsAux t true)
    else c :: replaceDigitsAux t false

/-- The first regexp substitution of `GenerateErrorSignature`:
`regexp.MustCompile(d+).ReplaceAllString(cleaned, "N")` — every maximal run
of decimal digits becomes a single `N`. -/
def replaceDigits (s : Str) : Str := replaceDigitsAux s false

/-- The RE2 character class `\s`, i.e. space, tab, newline, form feed and
carriage return. -/
def isSpaceRE2 (c : Char) : Bool :=
  c == ' ' || c == '\t' || c == '\n' || c == '\x0c' || c == '\r'

/-- Worker for `replacePaths`; the flag records that the scanner is inside
a path match whose `/PATH` token has already been emitted, so the rest of
the non-whitespace run is skipped. -/
def replacePathsAux : Str → Bool → Str
  | [], _ => []
  | c :: t, true =>
    if isSpaceRE2 c then c :: replacePathsAux t false
    else replacePathsAux t true
  | c :: t, false =>
    if c == '/' && (match t with | d :: _ => !(isSpaceRE2 d) | [] => false) then
      "/PATH".toList ++ replacePathsAux t true
    else c :: replacePathsAux t false

/-- The second regexp substitution of `GenerateErrorSignature`: each
leftmost match of `/[^\s]+` (a slash followed by one or more non-whitespace
characters, greedily) is replaced by `/PATH`. -/
def replacePaths (s : Str) : Str := replacePathsAux s false

/-- Lower-case hexadecimal digit, the class `[0-9a-f]` of the UUID regexp. -/
def isHexC (c : Char) : Bool := ('0' ≤ c && c ≤ '9') || ('a' ≤ c && c ≤ 'f')

/-- Consume exactly `n` hex digits, returning the remainder on success. -/
def takeHex : Nat → Str → Option Str
  | 0, s => some s
  | _ + 1, [] => none
  | n + 1, c :: t => if isHexC c then takeHex n t else none

/-- Consume one dash, returning the remainder on success. -/
def expectDash : Str → Option Str
  | c :: t => if c = '-' then some t else none
  | [] => none

/-- Match the UUID shape `[0-9a-f]{8}-[0-9a-f]{4}-[0-9a-f]{4}-[0-9a-f]{4}-[0-9a-f]{12}`
at the head of the string, returning the remainder after the 36 matched
characters. -/
def matchUUID (s : Str) : Option Str :=
  ((((((((takeHex 8 s).bind expectDash).bind (takeHex 4)).bind
      expectDash).bind (takeHex 4)).bind expectDash).bind (takeHex 4)).bind
      expectDash).bind (takeHex 12)

/-- The third regexp substitution of `GenerateErrorSignature`: each leftmost
occurrence of the canonical lower-case UUID shape is replaced by `UUID`. -/
def replaceUUIDs : Str → Str
  | [] => []
  | c :: t =>
    match h : matchUUID (c :: t) with
    | some rest => "UUID".toList ++ replaceUUIDs rest
    | none => c :: replaceUUIDs t
termination_by s => s.length
decreasing_by
  · have tk : ∀ n s r, takeHex n s = some r → r.length ≤ s.length := by
      intro n
      induction n with
      | zero => intro s r hs; simp [takeHex] at hs; simp [hs]
      | succ m ih =>
        intro s r hs
        cases s with
        | nil => simp [takeHex] at hs
        | cons d u =>
          simp only [takeHex] at hs
          by_cases hd : isHexC d = true
          · simp [hd] at hs
            have := ih u r hs
            simp [List.length_cons]
            omega
          · simp [hd] at hs
    have ed : ∀ s r, expectDash s = some r → r.length < s.length := by
      intro s r hs
      cases s with
      | nil => simp [expectDash] at hs
      | cons d u =>
        simp only [expectDash] at hs
        by_cases hd : d = '-'
        · simp [hd] at hs
          simp [hs]
        · simp [hd] at hs
    rw [matchUUID] at h
    obtain ⟨a8, h8, l9⟩ := Option.bind_eq_some.mp h
    obtain ⟨a7, h7, l8⟩ := Option.bind_eq_some.mp h8
    obtain ⟨a6, h6, l7⟩ := Option.bind_eq_some.mp h7
    obtain ⟨a5, h5, l6⟩ := Option.bind_eq_some.mp h6
    obtain ⟨a4, h4, l5⟩ := Option.bind_eq_some.mp h5
    obtain ⟨a3, h3, l4⟩ := Option.bind_eq_some.mp h4
    obtain ⟨a2, h2, l3⟩ := Option.bind_eq_some.mp h3
    obtain ⟨a1, h1, l2⟩ := Option.bind_eq_some.mp h2
    have e1 := tk 8 (c :: t) a1 h1
    have e2 := ed a1 a2 l2
    have e3 := tk 4 a2 a3 l3
    have e4 := ed a3 a4 l4
    have e5 := tk 4 a4 a5 l5
    have e6 := ed a5 a6 l6
    have e7 := tk 4 a6 a7 l7
    have e8 := ed a7 a8 l8
    have e9 := tk 12 a8 rest l9
    simp only [List.length_cons] at *
    omega
  · simp

/-- The full normalization pipeline of `GenerateErrorSignature`, in the order
the Go code applies the three substitutions: digits, then paths, then UUIDs. -/
def normalizeMsg (m : Str) : Str := replaceUUIDs (replacePaths (replaceDigits m))

/-- `GenerateErrorSignature` from `pkg/ai/analyzer.go`.  The Go function
finishes by hashing `errorType ++ ":" ++ cleaned` with md5 and hex-encoding
the digest; the digest is modelled as the identity on that tag string (the
digest is a fixed pure function of the tag, so signature equalities proved
here are signature equalities of the Go code; signature distinctness
additionally assumes the absence of md5 collisions between the inputs
involved). -/
def generateErrorSignature (errorMsg errorType : Str) : Str :=
  errorType ++ ':' :: normalizeMsg errorMsg

/-- Whitespace as trimmed by Go's `strings.TrimSpace`, restricted to the
ASCII white-space characters. -/
def isGoSpace (c : Char) : Bool :=
  c == ' ' || c == '\t' || c == '\n' || c == '\x0b' || c == '\x0c' || c == '\r'

/-- `strings.TrimSpace`, at the ASCII level. -/
def trimSpace (s : Str) : Str :=
  ((s.dropWhile isGoSpace).reverse.dropWhile isGoSpace).reverse

/-- `strings.Split(s, "\n")`: the list of segments of `s` between newline
characters (always non-empty). -/
def splitNl : Str → List Str
  | [] => [[]]
  | c :: t =>
    if c == '\n' then [] :: splitNl t
    else
      match splitNl t with
      | h :: r => (c :: h) :: r
      | [] => [[c]]

/-- `extractRootCause` from `pkg/ai/analyzer.go`: the trimmed first line of
the message, truncated to 150 characters plus an ellipsis when longer.
(Go measures the 150 cut-off in bytes; character and byte positions agree
on single-byte characters.) -/
def extractRootCause (errorMsg : Str) : Str :=
  match splitNl errorMsg with
  | line0 :: _ =>
    let rootCause := trimSpace line0
    if 150 < rootCause.length then rootCause.take 150 ++ "...".toList
    else rootCause
  | [] => errorMsg

/-- `models.StepResult`, restricted to the fields the analyzer reads. -/
structure StepResult where
  stepText : Str
  failed : Bool
  errorMessage : Str
  stackTrace : Str
  deriving DecidableEq, Repr

/-- `models.ScenarioResult`, restricted to the fields the analyzer reads. -/
structure ScenarioResult where
  scenarioHeading : Str
  failed : Bool
  steps : List StepResult
  deriving DecidableEq, Repr

/-- `models.SpecResult`, restricted to the fields the analyzer reads. -/
structure SpecResult where
  specHeading : Str
  scenarios : List ScenarioResult
  deriving DecidableEq, Repr

/-- `models.HistoricalRun`, restricted to the fields the analyzer reads;
`SuccessRate` is a Go `float64`, modelled as a rational. -/
structure HistoricalRun where
  successRate : ℚ
  deriving DecidableEq

/-- `models.TrendData`, restricted to the fields the analyzer reads. -/
structure TrendData where
  historicalRuns : List HistoricalRun
  deriving DecidableEq

/-- `models.FlakyTest`, restricted to the fields the analytics engine
writes (`LastSeen` is a wall-clock timestamp and is omitted). -/
structure FlakyTest where
  specName : Str
  scenarioName : Str
  flakyScore : ℚ
  failureRate : ℚ
  occurrences : Nat
  deriving DecidableEq

/-- `models.EnhancedSuiteResult`, restricted to the fields the analyzer and
the analytics engine read.  `Trends` is a nullable pointer, modelled as an
option. -/
structure EnhancedSuiteResult where
  specResults : List SpecResult
  successRate : ℚ
  failedScenariosCount : Nat
  totalScenariosCount : Nat
  trends : Option TrendData
  flakyTests : List FlakyTest

/-- `ai.FailureGroup` from `pkg/ai/analyzer.go`. -/
structure FailureGroup where
  signature : Str
  errorType : ErrorType
  rootCause : Str
  count : Nat
  affectedScenarios : List Str
  affectedSpecs : List Str
  severity : Str
  suggestedFix : Str
  errorMessage : Str
  stackTrace : Str
  stepText : Str
  specName : Str
  deriving DecidableEq, Repr

/-- `calculateSeverity` from `pkg/ai/analyzer.go`. -/
def calculateSeverity (errorType : ErrorType) (count : Nat) : Str :=
  if 3 ≤ count then "critical".toList
  else
    match errorType with
    | .assertion => if 2 ≤ count then "high".toList else "medium".toList
    | .timeout => "high".toList
    | .network => "high".toList
    | .database => "critical".toList
    | .nullPointer => "high".toList
    | _ => "medium".toList

/-- `getPatternBasedSuggestion` from `pkg/ai/analyzer.go`: the fixed
fallback template per error kind. -/
def getPatternBasedSuggestion : ErrorType → Str
  | .assertion => "Review test expectations and verify they match actual behavior. Check if application logic changed or test data is outdated.".toList
  | .timeout => "Increase timeout values or investigate performance degradation. Check for slow external dependencies or resource constraints.".toList
  | .network => "Verify network connectivity, check service availability, and ensure proper error handling for network failures.".toList
  | .nullPointer => "Add null checks before accessing objects. Verify object initialization and data flow in the application.".toList
  | .fileSystem => "Verify file paths, check file permissions, and ensure required files exist before test execution.".toList
  | .database => "Check database connection, verify schema integrity, and ensure test data is properly set up.".toList
  | .environment => "Review environment configuration, check required properties are set, and verify environment setup scripts.".toList
  | .unknown => "Review error logs and stack trace for more details. Consider adding more specific error handling.".toList

/-- `ai.LLMProvider` from `pkg/ai/llm.go` (the provider constants). -/
inductive LLMProvider
  | provNone | openai | claude | gemini | local
  deriving DecidableEq, Repr

/-- `ai.LLMConfig`, restricted to the fields that decide whether a client
is constructed (`Timeout` only parameterizes the HTTP transport). -/
structure LLMConfig where
  enabled : Bool
  provider : LLMProvider
  apiKey : Str
  apiURL : Str
  model : Str

/-- `ai.LLMClient`.  The observable behaviour of its
`GenerateFixSuggestion(errorMsg, stackTrace, stepText, specName)` method —
prompt construction, provider dispatch and the HTTP exchange — is modelled
as an oracle giving, for each argument tuple, either the returned text or
an error, as fixed by the surrounding environment. -/
structure LLMClient where
  fixSuggestion : Str → Str → Str → Str → Except Unit Str

/-- `NewLLMClient` from `pkg/ai/llm.go`: returns no client when the
configuration is absent, disabled, or selects no provider; `net` supplies
the environment's behaviour for the constructed client's calls. -/
def NewLLMClient (config : Option LLMConfig)
    (net : Str → Str → Str → Str → Except Unit Str) : Option LLMClient :=
  match config with
  | none => none
  | some c =>
    if c.enabled = false ∨ c.provider = LLMProvider.provNone then none
    else some ⟨net⟩

/-- `ai.Analyzer`: the LLM client (possibly absent) and the `useRealAI`
flag. -/
structure Analyzer where
  llmClient : Option LLMClient
  useRealAI : Bool

/-- `NewAnalyzer` from `pkg/ai/analyzer.go`, with the environment-read
configuration and the network behaviour passed explicitly:
`useRealAI` is set exactly when a client was constructed. -/
def NewAnalyzer (config : Option LLMConfig)
    (net : Str → Str → Str → Str → Except Unit Str) : Analyzer :=
  { llmClient := NewLLMClient config net
    useRealAI := (NewLLMClient config net).isSome }

/-- `generateFixSuggestion` from `pkg/ai/analyzer.go`: try the LLM when
`useRealAI` is set and a client exists; keep its answer only when the call
succeeded with non-empty text; otherwise fall back to the pattern-based
template. -/
def Analyzer.generateFixSuggestion (a : Analyzer) (errorType : ErrorType)
    (errorMsg stackTrace stepText specName : Str) : Str :=
  match a.llmClient with
  | some c =>
    if a.useRealAI then
      match c.fixSuggestion errorMsg stackTrace stepText specName with
      | .ok s => if s ≠ [] then s else getPatternBasedSuggestion errorType
      | .error _ => getPatternBasedSuggestion errorType
    else getPatternBasedSuggestion errorType
  | none => getPatternBasedSuggestion errorType

/-- The first-failed-step scan of `GroupFailures`: the loop over
`scenario.Steps` breaks at the first step with `Failed` set, leaving the
error message, stack trace and step text empty when no step failed. -/
def firstFailedStep (steps : List StepResult) : Str × Str × Str :=
  match steps.find? (fun st => st.failed) with
  | some st => (st.errorMessage, st.stackTrace, st.stepText)
  | none => ([], [], [])

/-- The group-update branch of `GroupFailures`: walk the groups (keyed by
signature), increment the matching group's count, append the scenario
heading, and add the spec heading unless already present (`contains`);
when no group matches, append a fresh group exactly as the Go `else`
branch constructs it. -/
def insertGroup (a : Analyzer) (sig : Str) (errorType : ErrorType)
    (errorMsg stackTrace stepText scenarioHeading specHeading : Str) :
    List FailureGroup → List FailureGroup
  | [] =>
    [{ signature := sig
       errorType := errorType
       rootCause := extractRootCause errorMsg
       count := 1
       affectedScenarios := [scenarioHeading]
       affectedSpecs := [specHeading]
       severity := calculateSeverity errorType 1
       suggestedFix := a.generateFixSuggestion errorType errorMsg stackTrace stepText specHeading
       errorMessage := errorMsg
       stackTrace := stackTrace
       stepText := stepText
       specName := specHeading }]
  | g :: gs =>
    if g.signature = sig then
      { g with
        count := g.count + 1
        affectedScenarios := g.affectedScenarios ++ [scenarioHeading]
        affectedSpecs :=
          if specHeading ∈ g.affectedSpecs then g.affectedSpecs
          else g.affectedSpecs ++ [specHeading] } :: gs
    else g :: insertGroup a sig errorType errorMsg stackTrace stepText scenarioHeading specHeading gs

/-- One failed scenario's processing inside the double loop of
`GroupFailures`. -/
def processScenario (a : Analyzer) (specHeading : Str)
    (groups : List FailureGroup) (scenario : ScenarioResult) : List FailureGroup :=
  if scenario.failed = false then groups
  else
    let emst := firstFailedStep scenario.steps
    if emst.1 = [] then groups
    else
      let errorType := classifyError emst.1 emst.2.1
      let sig := generateErrorSignature emst.1 errorType.str
      insertGroup a sig errorType emst.1 emst.2.1 emst.2.2
        scenario.scenarioHeading specHeading groups

/-- The accumulation phase of `GroupFailures`: the map `groups`, modelled
as a list of groups in the order their signatures were first inserted. -/
def buildGroups (a : Analyzer) (suite : EnhancedSuiteResult) : List FailureGroup :=
  suite.specResults.foldl
    (fun gs sp => sp.scenarios.foldl (fun gs' sc => processScenario a sp.specHeading gs' sc) gs)
    []

/-- `GroupFailures` from `pkg/ai/analyzer.go`.  The final `for _, group :=
range groups` loop ranges over a Go map, whose iteration order is
unspecified; `order` lists, in visiting order, the positions (within the
insertion-ordered entry list `buildGroups`) of the entries the range loop
yields — a faithful run of the Go code corresponds to an `order` that is a
permutation of all positions.  Each visited group's severity is recomputed
from its final count, as in the Go loop body. -/
def groupFailures (a : Analyzer) (suite : EnhancedSuiteResult)
    (order : List Nat) : List FailureGroup :=
  let gs := buildGroups a suite
  order.filterMap (fun i =>
    (gs.get? i).map (fun g => { g with severity := calculateSeverity g.errorType g.count }))

/-- `storage.ScenarioRecord`, restricted to the status field (the only
field the flakiness computations read). -/
structure ScenarioRecord where
  status : Str

/-- `storage.Database`: the persistence collaborator, modelled by the rows
its windowed scenario query returns.  `scenarioHistory name days` stands
both for `GetScenarioHistory(name, days)` and for the row set the SQL
aggregate in `CalculateFlakyScore` counts — the two queries share the same
join and window condition. -/
structure Database where
  scenarioHistory : Str → Nat → List ScenarioRecord

/-- The failed-run count over a history window (`SUM(CASE WHEN status =
'failed' ...)` in `CalculateFlakyScore`, and the `h.Status == "failed"`
loop in `DetectFlakyTests`). -/
def failedRunsIn (hist : List ScenarioRecord) : Nat :=
  (hist.filter (fun r => r.status = "failed".toList)).length

/-- `Database.CalculateFlakyScore` from the storage layer: zero below 3
runs in the window, otherwise `1 - 2*|failureRate - 0.5|`, with `float64`
arithmetic modelled as exact rational arithmetic. -/
def calculateFlakyScore (db : Database) (scenarioName : Str) (days : Nat) : ℚ :=
  let hist := db.scenarioHistory scenarioName days
  let totalRuns := hist.length
  let failedRuns := failedRunsIn hist
  if totalRuns < 3 then 0
  else 1 - 2 * |(failedRuns : ℚ) / (totalRuns : ℚ) - 1/2|

/-- `Engine.DetectFlakyTests` from `pkg/analytics/engine.go`: with no
database, the empty list; otherwise one `FlakyTest` per scenario whose
flaky score exceeds the fixed threshold 0.3, carrying the failure rate as
a percentage and the window's run count.  (The Go code also skips a
scenario when the score query itself returns an SQL error; the pure model
has no failing queries.) -/
def detectFlakyTests (db : Option Database) (suite : EnhancedSuiteResult) : List FlakyTest :=
  match db with
  | none => []
  | some d =>
    suite.specResults.flatMap (fun sp =>
      sp.scenarios.filterMap (fun sc =>
        let score := calculateFlakyScore d sc.scenarioHeading 30
        if 3/10 < score then
          let hist := d.scenarioHistory sc.scenarioHeading 30
          let totalRuns := hist.length
          let failedRuns := failedRunsIn hist
          let failureRate :=
            if 0 < totalRuns then (failedRuns : ℚ) / (totalRuns : ℚ) * 100 else 0
          some { specName := sp.specHeading
                 scenarioName := sc.scenarioHeading
                 flakyScore := score
                 failureRate := failureRate
                 occurrences := totalRuns }
        else none))

/-- `ai.ExecutiveSummary` from `pkg/ai/analyzer.go`. -/
structure ExecutiveSummary where
  healthStatus : Str
  keyInsights : List Str
  criticalIssues : List Str
  trendIndicator : Str
  recommendation : Str
  deriving DecidableEq, Repr

/-- Go's `%d` for a non-negative int: decimal digits, most significant
first. -/
def natStr (n : Nat) : Str := Nat.toDigits 10 n

/-- The `TrendIndicator` strings of `GenerateExecutiveSummary`, exactly as
the characters stand in the source file (a pictograph-like prefix before
the word). -/
def improvingStr : Str := "ğŸ“ˆ Improving".toList

/-- The declining-trend indicator string of `GenerateExecutiveSummary`. -/
def decliningStr : Str := "ğŸ“‰ Declining".toList

/-- The stable-trend indicator string of `GenerateExecutiveSummary`. -/
def stableStr : Str := "ğŸ“Š Stable".toList

/-- The baseline-trend indicator string of `GenerateExecutiveSummary`. -/
def baselineStr : Str := "ğŸ“Š Baseline".toList

/-- The health-status switch of `GenerateExecutiveSummary` (success rate is
a Go `float64`, modelled as a rational). -/
def healthStatusOf (successRate : ℚ) : Str :=
  if 95 ≤ successRate then "Excellent".toList
  else if 85 ≤ successRate then "Good".toList
  else if 70 ≤ successRate then "Fair".toList
  else "Poor".toList

/-- The trend-indicator computation of `GenerateExecutiveSummary`: with
trend data holding more than one historical run, compare the suite's
current success rate against the second-to-last historical run's rate;
otherwise the baseline indicator. -/
def trendIndicatorOf (suite : EnhancedSuiteResult) : Str :=
  match suite.trends with
  | some td =>
    if 1 < td.historicalRuns.length then
      let current := suite.successRate
      let previous :=
        (td.historicalRuns.getD (td.historicalRuns.length - 2) ⟨0⟩).successRate
      let diff := current - previous
      if 5 < diff then improvingStr
      else if diff < -5 then decliningStr
      else stableStr
    else baselineStr
  | none => baselineStr

/-- The key-insights construction of `GenerateExecutiveSummary`, in the
order the Go code appends them. -/
def keyInsightsOf (suite : EnhancedSuiteResult) (failureGroups : List FailureGroup) : List Str :=
  let first :=
    if suite.failedScenariosCount = 0 then
      ["âœ… All tests passed successfully - no failures detected".toList]
    else
      [("âš ï¸ ".toList ++ natStr suite.failedScenariosCount
        ++ " scenario(s) failed out of ".toList ++ natStr suite.totalScenariosCount
        ++ " total".toList)]
  let second :=
    if 0 < failureGroups.length then
      let uniqueErrors := failureGroups.length
      let totalFailures := suite.failedScenariosCount
      if uniqueErrors = 1 then
        ["ğŸ” Single root cause identified - focused fix possible".toList]
      else if uniqueErrors < totalFailures then
        [("ğŸ” ".toList ++ natStr uniqueErrors
          ++ " unique failure patterns detected".toList)]
      else []
    else []
  let third :=
    if 0 < suite.flakyTests.length then
      [("ğŸ”„ ".toList ++ natStr suite.flakyTests.length
        ++ " flaky test(s) detected - needs stabilization".toList)]
    else []
  first ++ second ++ third

/-- The critical-issues construction of `GenerateExecutiveSummary`: one
formatted line per group whose severity is critical or high. -/
def criticalIssuesOf (failureGroups : List FailureGroup) : List Str :=
  (failureGroups.filter (fun g =>
      g.severity = "critical".toList ∨ g.severity = "high".toList)).map
    (fun g => g.errorType.str ++ ": ".toList ++ g.rootCause
      ++ " (affects ".toList ++ natStr g.count ++ " scenario(s))".toList)

/-- `generateRecommendation` from `pkg/ai/analyzer.go`. -/
def generateRecommendation (healthStatus : Str) (criticalIssues : List Str)
    (trendIndicator : Str) : Str :=
  if healthStatus = "Excellent".toList then
    "Continue maintaining high quality standards. Monitor for any new flaky tests.".toList
  else if 0 < criticalIssues.length then
    "Address critical failures immediately before proceeding with new deployments.".toList
  else if trendIndicator = decliningStr then
    "Investigate declining success rate. Review recent changes and consider rolling back if necessary.".toList
  else
    "Focus on stabilizing failing scenarios. Prioritize fixes based on failure frequency.".toList

/-- `GenerateExecutiveSummary` from `pkg/ai/analyzer.go`. -/
def generateExecutiveSummary (suite : EnhancedSuiteResult)
    (failureGroups : List FailureGroup) : ExecutiveSummary :=
  let healthStatus := healthStatusOf suite.successRate
  let keyInsights := keyInsightsOf suite failureGroups
  let criticalIssues := criticalIssuesOf failureGroups
  let trendIndicator := trendIndicatorOf suite
  { healthStatus := healthStatus
    keyInsights := keyInsights
    criticalIssues := criticalIssues
    trendIndicator := trendIndicator
    recommendation := generateRecommendation healthStatus criticalIssues trendIndicator }

/-- One grouping-relevant failure occurrence, as the spec describes it
(section 4.3): the data of the first failed step of a failed scenario
whose error message is non-empty, together with the scenario and spec
headings. -/
structure Contribution where
  specHeading : Str
  scenarioHeading : Str
  errorMsg : Str
  stackTrace : Str
  stepText : Str
  deriving DecidableEq, Repr

/-- The contribution (if any) of one scenario of one spec: nothing for a
passing scenario, nothing for a failed scenario whose first failed step
carries an empty error message. -/
def contribOf (specHeading : Str) (sc : ScenarioResult) : Option Contribution :=
  if sc.failed = false then none
  else
    let emst := firstFailedStep sc.steps
    if emst.1 = [] then none
    else some ⟨specHeading, sc.scenarioHeading, emst.1, emst.2.1, emst.2.2⟩

/-- All grouping-relevant failure occurrences of a suite, in traversal
order. -/
def contributions (suite : EnhancedSuiteResult) : List Contribution :=
  suite.specResults.flatMap (fun sp => sp.scenarios.filterMap (contribOf sp.specHeading))

/-- The grouping key of a contribution: the signature of its error message
under its classified kind. -/
def contribKey (c : Contribution) : Str :=
  generateErrorSignature c.errorMsg (classifyError c.errorMsg c.stackTrace).str

/-- `insertGroup` applied to the data of one contribution. -/
def insertContribution (a : Analyzer) (G : List FailureGroup) (c : Contribution) :
    List FailureGroup :=
  insertGroup a (contribKey c) (classifyError c.errorMsg c.stackTrace)
    c.errorMsg c.stackTrace c.stepText c.scenarioHeading c.specHeading G

/-- Deduplication keeping the first occurrence of each string; `seen`
accumulates the strings already kept. -/
def firstDedupAux (seen : List Str) : List Str → List Str
  | [] => []
  | x :: xs =>
    if x ∈ seen then firstDedupAux seen xs
    else x :: firstDedupAux (x :: seen) xs

/-- Deduplication keeping the first occurrence of each string. -/
def firstDedup (l : List Str) : List Str := firstDedupAux [] l

/-- The grouping-relevant projection of a failure group: signature,
occurrence count, affected scenario headings and affected spec headings. -/
def proj (g : FailureGroup) : Str × Nat × List Str × List Str :=
  (g.signature, g.count, g.affectedScenarios, g.affectedSpecs)

/-- The contributions carrying a given grouping key. -/
def occOf (cs : List Contribution) (k : Str) : List Contribution :=
  cs.filter (fun c => contribKey c = k)

/-- The group content the spec prescribes for one grouping key: occurrence
count, every occurrence's scenario heading (not deduplicated), and the
affected spec headings deduplicated in first-occurrence order. -/
def entryOf (cs : List Contribution) (k : Str) : Str × Nat × List Str × List Str :=
  (k, (occOf cs k).length,
   (occOf cs k).map (fun c => c.scenarioHeading),
   firstDedup ((occOf cs k).map (fun c => c.specHeading)))

/-- Modelled from the spec's words (sections 3 and 4.3): one group per
distinct grouping key, keys in first-occurrence order, each group holding
the data `entryOf` prescribes. -/
def groupSpec (cs : List Contribution) : List (Str × Nat × List Str × List Str) :=
  (firstDedup (cs.map contribKey)).map (entryOf cs)

/-- One insertion step on projected groups, mirroring `insertGroup`'s
update of the matching entry (or its append of a fresh one). -/
def insertProj (c : Contribution) : List (Str × Nat × List Str × List Str) →
    List (Str × Nat × List Str × List Str)
  | [] => [(contribKey c, 1, [c.scenarioHeading], [c.specHeading])]
  | p :: ps =>
    if p.1 = contribKey c then
      (p.1, p.2.1 + 1, p.2.2.1 ++ [c.scenarioHeading],
       if c.specHeading ∈ p.2.2.2 then p.2.2.2
       else p.2.2.2 ++ [c.specHeading]) :: ps
    else p :: insertProj c ps

/-- The severity policy exactly as the claims state it: critical at three
or more occurrences or for Database; high for Timeout, Network and
NullReference, and for Assertion at two or more occurrences; medium
otherwise. -/
def severitySpec (t : ErrorType) (count : Nat) : Str :=
  if 3 ≤ count ∨ t = ErrorType.database then "critical".toList
  else if t = ErrorType.timeout ∨ t = ErrorType.network ∨ t = ErrorType.nullPointer
       ∨ (t = ErrorType.assertion ∧ 2 ≤ count) then "high".toList
  else "medium".toList

/-- The flaky-score formula of the spec as a function of the failure
rate: `1 - 2*|failureRate - 0.5|`. -/
def flakyScoreOfRate (r : ℚ) : ℚ := 1 - 2 * |r - 1/2|

/-- An analyzer whose LLM layer answers every fix-suggestion call with the
short text `fix` (used by concrete evaluations). -/
def exAnalyzer : Analyzer :=
  { llmClient := some ⟨fun _ _ _ _ => Except.ok "fix".toList⟩
    useRealAI := true }

/-- A failed step whose message classifies as an assertion failure. -/
def exStep1 : StepResult :=
  { stepText := "step one".toList
    failed := true
    errorMessage := "expected boom".toList
    stackTrace := [] }

/-- A failed step whose message classifies as a timeout. -/
def exStep2 : StepResult :=
  { stepText := "step two".toList
    failed := true
    errorMessage := "timed out".toList
    stackTrace := [] }

/-- A failed scenario carrying `exStep1`. -/
def exScenario1 : ScenarioResult :=
  { scenarioHeading := "scenario one".toList
    failed := true
    steps := [exStep1] }

/-- A failed scenario carrying `exStep2`. -/
def exScenario2 : ScenarioResult :=
  { scenarioHeading := "scenario two".toList
    failed := true
    steps := [exStep2] }

/-- A spec holding the two failed scenarios above. -/
def exSpec : SpecResult :=
  { specHeading := "spec one".toList
    scenarios := [exScenario1, exScenario2] }

/-- A suite whose two failed scenarios carry errors of different kinds, so
grouping produces two groups. -/
def exSuite : EnhancedSuiteResult :=
  { specResults := [exSpec]
    successRate := 0
    failedScenariosCount := 2
    totalScenariosCount := 2
    trends := none
    flakyTests := [] }

/-- A four-run history with two failures: failure rate one half. -/
def exHistory : List ScenarioRecord :=
  [⟨"failed".toList⟩, ⟨"passed".toList⟩, ⟨"failed".toList⟩, ⟨"passed".toList⟩]

/-- A database answering every scenario-history query with `exHistory`. -/
def exDb : Database := ⟨fun _ _ => exHistory⟩

/-- A two-run history: below the three-run minimum. -/
def exShortDb : Database := ⟨fun _ _ => [⟨"failed".toList⟩, ⟨"passed".toList⟩]⟩

/-- An LLM configuration with the enabled flag off. -/
def exDisabledConfig : LLMConfig :=
  { enabled := false
    provider := LLMProvider.openai
    apiKey := []
    apiURL := []
    model := [] }

/-- An LLM client whose every call fails. -/
def exErrClient : LLMClient := ⟨fun _ _ _ _ => Except.error ()⟩

/-- An analyzer holding the failing client. -/
def exErrAnalyzer : Analyzer := { llmClient := some exErrClient, useRealAI := true }

instance : Inhabited FailureGroup :=
  ⟨{ signature := [], errorType := .unknown, rootCause := [], count := 0,
     affectedScenarios := [], affectedSpecs := [], severity := [],
     suggestedFix := [], errorMessage := [], stackTrace := [],
     stepText := [], specName := [] }⟩

/-- The first group `groupFailures` emits for `exSuite` under the identity
iteration order. -/
def exGroup1 : FailureGroup := (groupFailures exAnalyzer exSuite [0, 1]).headI

theorem classifyError_eq_classifySpec : ∀ e st, classifyError e st = classifySpec e st := by
  intro e st
  simp only [classifyError, classifySpec, keywordTable, firstMatch,
    List.any_cons, List.any_nil, Bool.or_false, Bool.or_assoc]

theorem splitNl_head : ∀ s : Str, ∃ r, splitNl s = (s.takeWhile (fun c => c != '\n')) :: r := by
  intro s
  induction s with
  | nil => exact ⟨[], rfl⟩
  | cons c t ih =>
    obtain ⟨r, hr⟩ := ih
    by_cases hc : c = '\n'
    · refine ⟨splitNl t, ?_⟩
      simp [splitNl, hc, List.takeWhile_cons]
    · refine ⟨r, ?_⟩
      simp only [splitNl, hr]
      simp [List.takeWhile_cons, hc]

/-- C6: `ClassifyError` tests the keyword sets in the fixed documented
order against the lower-cased concatenation of message and stack trace,
returning the first kind with a matching keyword and Unknown otherwise
(first conjunct: it equals the first-match reference `classifySpec`), and
any input containing both `expected` and `timeout` classifies as
Assertion (second conjunct). -/
theorem C6_classify_order_sensitive :
    (∀ e st, classifyError e st = classifySpec e st) ∧
    (∀ e st, containsSub (strToLower (e ++ ' ' :: st)) "expected".toList = true →
      containsSub (strToLower (e ++ ' ' :: st)) "timeout".toList = true →
      classifyError e st = ErrorType.assertion) := by
  constructor
  · exact classifyError_eq_classifySpec
  · intro e st h1 _
    have hmem : "expected".toList ∈ assertionPatterns := by decide
    have hany : (assertionPatterns.any fun p =>
        containsSub (strToLower (e ++ ' ' :: st)) p) = true :=
      List.any_eq_true.mpr ⟨"expected".toList, hmem, h1⟩
    simp [classifyError, hany]

/-- Concrete run of C6 at a message containing both keywords. -/
theorem C6_witness :
    containsSub (strToLower ("expected timeout".toList ++ ' ' :: [])) "expected".toList = true ∧
    containsSub (strToLower ("expected timeout".toList ++ ' ' :: [])) "timeout".toList = true ∧
    classifyError "expected timeout".toList [] = ErrorType.assertion :=
  ⟨by decide, by decide,
   C6_classify_order_sensitive.2 "expected timeout".toList [] (by decide) (by decide)⟩

/-- C7: messages agreeing after collapsing every maximal decimal-digit run
(in particular, messages differing only in embedded digit runs) receive
the same signature for every kind, and the signature is the fixed function
of the kind tag and the normalized message (digit runs to `N`, then
slash-prefixed non-whitespace runs to `/PATH`, then canonical UUID shapes
to `UUID`). -/
theorem C7_signature_digit_invariant :
    ∀ m1 m2 kind, replaceDigits m1 = replaceDigits m2 →
      generateErrorSignature m1 kind = generateErrorSignature m2 kind ∧
      generateErrorSignature m1 kind =
        kind ++ ':' :: replaceUUIDs (replacePaths (replaceDigits m1)) := by
  intro m1 m2 kind h
  constructor
  · simp only [generateErrorSignature, normalizeMsg, h]
  · rfl

/-- Concrete run of C7 on the spec's example pair. -/
theorem C7_witness :
    replaceDigits "Expected 5 but got 1".toList = replaceDigits "Expected 10 but got 2".toList ∧
    generateErrorSignature "Expected 5 but got 1".toList "Assertion Failure".toList =
      generateErrorSignature "Expected 10 but got 2".toList "Assertion Failure".toList :=
  ⟨by decide,
   (C7_signature_digit_invariant "Expected 5 but got 1".toList
     "Expected 10 but got 2".toList "Assertion Failure".toList (by decide)).1⟩

/-- C10: the root cause is the whitespace-trimmed first line of the error
message, with lines longer than 150 characters cut to their first 150
characters plus an ellipsis. -/
theorem C10_root_cause_truncated_first_line :
    ∀ msg : Str,
      extractRootCause msg =
        (if (trimSpace (msg.takeWhile (fun c => c != '\n'))).length ≤ 150 then
          trimSpace (msg.takeWhile (fun c => c != '\n'))
        else (trimSpace (msg.takeWhile (fun c => c != '\n'))).take 150 ++ "...".toList) := by
  intro msg
  obtain ⟨r, hr⟩ := splitNl_head msg
  simp only [extractRootCause, hr]
  split_ifs with h1 h2 h3
  · omega
  · rfl
  · rfl
  · omega

/-- C8: the executive summary's health status is Excellent exactly at
success rate at least 95, Good exactly on [85, 95), Fair exactly on
[70, 85), and Poor exactly below 70. -/
theorem C8_health_status_thresholds :
    ∀ (suite : EnhancedSuiteResult) (fgs : List FailureGroup),
      ((generateExecutiveSummary suite fgs).healthStatus = "Excellent".toList
        ↔ 95 ≤ suite.successRate) ∧
      ((generateExecutiveSummary suite fgs).healthStatus = "Good".toList
        ↔ 85 ≤ suite.successRate ∧ suite.successRate < 95) ∧
      ((generateExecutiveSummary suite fgs).healthStatus = "Fair".toList
        ↔ 70 ≤ suite.successRate ∧ suite.successRate < 85) ∧
      ((generateExecutiveSummary suite fgs).healthStatus = "Poor".toList
        ↔ suite.successRate < 70) := by
  intro suite fgs
  have hh : (generateExecutiveSummary suite fgs).healthStatus
      = healthStatusOf suite.successRate := rfl
  rw [hh]
  unfold healthStatusOf
  split_ifs with h1 h2 h3 <;>
    refine ⟨⟨fun hx => ?_, fun hx => ?_⟩, ⟨fun hx => ?_, fun hx => ?_⟩,
      ⟨fun hx => ?_, fun hx => ?_⟩, ⟨fun hx => ?_, fun hx => ?_⟩⟩ <;>
    first
      | rfl
      | linarith
      | (refine ⟨by linarith, by linarith⟩)
      | (exfalso; revert hx; decide)

/-- C9 counterexample: on a suite with no trend data the code's trend
indicator is not the bare string `Baseline` (it carries the source's
pictograph prefix). -/
theorem C9_counterexample :
    (generateExecutiveSummary exSuite []).trendIndicator ≠ "Baseline".toList := by
  decide

/-- C9 amended: with no trend data or at most one historical run the trend
indicator is the source's baseline string (prefix + `Baseline`); with at
least two historical runs it is the source's improving string when the
current suite success rate exceeds the second-to-last historical run's
rate by more than 5, the declining string when that difference is below
-5, and the stable string otherwise. -/
theorem C9_trend_indicator_amended :
    ∀ (suite : EnhancedSuiteResult) (fgs : List FailureGroup),
      (suite.trends = none →
        (generateExecutiveSummary suite fgs).trendIndicator = baselineStr) ∧
      (∀ td, suite.trends = some td → td.historicalRuns.length ≤ 1 →
        (generateExecutiveSummary suite fgs).trendIndicator = baselineStr) ∧
      (∀ td, suite.trends = some td → 2 ≤ td.historicalRuns.length →
        ((5 < suite.successRate -
            (td.historicalRuns.getD (td.historicalRuns.length - 2) ⟨0⟩).successRate →
          (generateExecutiveSummary suite fgs).trendIndicator = improvingStr) ∧
         (suite.successRate -
            (td.historicalRuns.getD (td.historicalRuns.length - 2) ⟨0⟩).successRate < -5 →
          (generateExecutiveSummary suite fgs).trendIndicator = decliningStr) ∧
         (-5 ≤ suite.successRate -
            (td.historicalRuns.getD (td.historicalRuns.length - 2) ⟨0⟩).successRate →
          suite.successRate -
            (td.historicalRuns.getD (td.historicalRuns.length - 2) ⟨0⟩).successRate ≤ 5 →
          (generateExecutiveSummary suite fgs).trendIndicator = stableStr))) := by
  intro suite fgs
  have hh : (generateExecutiveSummary suite fgs).trendIndicator
      = trendIndicatorOf suite := rfl
  rw [hh]
  refine ⟨fun hn => ?_, fun td htd hlen => ?_, fun td htd hlen => ?_⟩
  · simp [trendIndicatorOf, hn]
  · simp only [trendIndicatorOf, htd]
    have : ¬ 1 < td.historicalRuns.length := by omega
    simp [this]
  · have hgt : 1 < td.historicalRuns.length := by omega
    set d := suite.successRate -
      (td.historicalRuns.getD (td.historicalRuns.length - 2) ⟨0⟩).successRate with hdd
    have key : trendIndicatorOf suite =
        (if 5 < d then improvingStr
         else if d < -5 then decliningStr else stableStr) := by
      simp only [trendIndicatorOf, htd]
      rw [if_pos hgt, hdd]
    refine ⟨fun hi => ?_, fun hdc => ?_, fun hs1 hs2 => ?_⟩
    · rw [key, if_pos hi]
    · rw [key, if_neg (by linarith), if_pos hdc]
    · rw [key, if_neg (by linarith), if_neg (by linarith)]

/-- Concrete run of C9's amended statement: a suite with no trend data
gets the baseline indicator. -/
theorem C9_witness :
    exSuite.trends = none ∧
    (generateExecutiveSummary exSuite []).trendIndicator = baselineStr :=
  ⟨rfl, (C9_trend_indicator_amended exSuite []).1 rfl⟩

/-- C2: whenever the LLM layer is absent (no configuration, disabled flag,
or no provider — in which case `NewLLMClient` yields no client and
`NewAnalyzer` clears `useRealAI`), or the flag is off, or the call errors,
or the call returns the empty string, the suggested fix is exactly the
per-kind template of `getPatternBasedSuggestion`. -/
theorem C2_fix_suggestion_fallback :
    (∀ net, NewLLMClient none net = none) ∧
    (∀ cfg net, cfg.enabled = false → NewLLMClient (some cfg) net = none) ∧
    (∀ cfg net, cfg.provider = LLMProvider.provNone → NewLLMClient (some cfg) net = none) ∧
    (∀ (a : Analyzer) t e st sp sn, a.llmClient = none →
      a.generateFixSuggestion t e st sp sn = getPatternBasedSuggestion t) ∧
    (∀ (a : Analyzer) t e st sp sn, a.useRealAI = false →
      a.generateFixSuggestion t e st sp sn = getPatternBasedSuggestion t) ∧
    (∀ (a : Analyzer) (c : LLMClient) t e st sp sn, a.llmClient = some c →
      c.fixSuggestion e st sp sn = Except.error () →
      a.generateFixSuggestion t e st sp sn = getPatternBasedSuggestion t) ∧
    (∀ (a : Analyzer) (c : LLMClient) t e st sp sn, a.llmClient = some c →
      c.fixSuggestion e st sp sn = Except.ok [] →
      a.generateFixSuggestion t e st sp sn = getPatternBasedSuggestion t) ∧
    (∀ cfg net t e st sp sn,
      (cfg = none ∨ (∃ c, cfg = some c ∧ (c.enabled = false ∨ c.provider = LLMProvider.provNone))) →
      (NewAnalyzer cfg net).generateFixSuggestion t e st sp sn = getPatternBasedSuggestion t) := by
  refine ⟨fun net => rfl, fun cfg net hen => ?_, fun cfg net hpr => ?_,
    fun a t e st sp sn hcl => ?_, fun a t e st sp sn hreal => ?_,
    fun a c t e st sp sn hcl herr => ?_, fun a c t e st sp sn hcl hok => ?_,
    fun cfg net t e st sp sn hdis => ?_⟩
  · simp [NewLLMClient, hen]
  · simp [NewLLMClient, hpr]
  · simp [Analyzer.generateFixSuggestion, hcl]
  · simp only [Analyzer.generateFixSuggestion]
    cases hc : a.llmClient with
    | none => rfl
    | some c => simp [hreal]
  · simp [Analyzer.generateFixSuggestion, hcl, herr]
  · simp [Analyzer.generateFixSuggestion, hcl, hok]
  · have hnone : NewLLMClient cfg net = none := by
      rcases hdis with hn | ⟨c, hc, hcd⟩
      · simp [hn, NewLLMClient]
      · rcases hcd with hen | hpr
        · simp [hc, NewLLMClient, hen]
        · simp [hc, NewLLMClient, hpr]
    simp [NewAnalyzer, Analyzer.generateFixSuggestion, hnone]

/-- Concrete runs of C2: a disabled configuration, a failing call and an
empty answer all yield the per-kind template. -/
theorem C2_witness :
    exDisabledConfig.enabled = false ∧
    exErrAnalyzer.llmClient = some exErrClient ∧
    exErrClient.fixSuggestion [] [] [] [] = Except.error () ∧
    (NewAnalyzer (some exDisabledConfig) (fun _ _ _ _ => Except.ok "llm text".toList)).generateFixSuggestion
      ErrorType.timeout [] [] [] [] = getPatternBasedSuggestion ErrorType.timeout ∧
    exErrAnalyzer.generateFixSuggestion ErrorType.timeout [] [] [] []
      = getPatternBasedSuggestion ErrorType.timeout :=
  ⟨rfl, rfl, rfl,
   C2_fix_suggestion_fallback.2.2.2.2.2.2.2 (some exDisabledConfig)
     (fun _ _ _ _ => Except.ok "llm text".toList) ErrorType.timeout [] [] [] []
     (Or.inr ⟨exDisabledConfig, rfl, Or.inl rfl⟩),
   C2_fix_suggestion_fallback.2.2.2.2.2.1 exErrAnalyzer exErrClient
     ErrorType.timeout [] [] [] [] rfl rfl⟩

theorem calculateSeverity_eq_spec : ∀ t c, calculateSeverity t c = severitySpec t c := by
  intro t c
  cases t <;> simp [calculateSeverity, severitySpec]

/-- C5: every group `GroupFailures` emits carries the severity computed
from its final occurrence count: critical at count at least 3 or for
Database, high for Timeout, Network and NullReference and for Assertion at
count at least 2, medium otherwise. -/
theorem C5_severity_policy :
    ∀ (a : Analyzer) (suite : EnhancedSuiteResult) (order : List Nat) (g : FailureGroup),
      g ∈ groupFailures a suite order →
      g.severity = severitySpec g.errorType g.count := by
  intro a suite order g hg
  simp only [groupFailures, List.mem_filterMap] at hg
  obtain ⟨i, _, hmap⟩ := hg
  cases hgs : (buildGroups a suite).get? i with
  | none => rw [hgs] at hmap; simp at hmap
  | some g0 =>
    rw [hgs] at hmap
    simp only [Option.map_some'] at hmap
    have hg0 := Option.some.inj hmap
    rw [← hg0]
    exact calculateSeverity_eq_spec g0.errorType g0.count

/-- Concrete run of C5 on the first group of `exSuite`. -/
theorem C5_witness :
    exGroup1 ∈ groupFailures exAnalyzer exSuite [0, 1] ∧
    exGroup1.severity = severitySpec exGroup1.errorType exGroup1.count := by
  have e : groupFailures exAnalyzer exSuite [0, 1]
      = exGroup1 :: (groupFailures exAnalyzer exSuite [0, 1]).tail := rfl
  have hmem : exGroup1 ∈ groupFailures exAnalyzer exSuite [0, 1] := by
    rw [e]
    exact List.mem_cons_self _ _
  exact ⟨hmem, C5_severity_policy exAnalyzer exSuite [0, 1] exGroup1 hmem⟩

/-- C1: the final list `GroupFailures` returns depends on the Go map
iteration order, which is unspecified: on `exSuite` the two valid
enumeration orders of the two map entries yield different lists, so the
returned order is not deterministic (the code performs no sort). -/
theorem C1_group_order_not_deterministic :
    [0, 1].Perm (List.range (buildGroups exAnalyzer exSuite).length) ∧
    [1, 0].Perm (List.range (buildGroups exAnalyzer exSuite).length) ∧
    groupFailures exAnalyzer exSuite [0, 1] ≠ groupFailures exAnalyzer exSuite [1, 0] := by
  exact ⟨by decide, by decide, by decide⟩

theorem mem_firstDedupAux :
    ∀ (l seen : List Str) (y : Str),
      y ∈ firstDedupAux seen l ↔ y ∈ l ∧ y ∉ seen := by
  intro l
  induction l with
  | nil => intro seen y; simp [firstDedupAux]
  | cons x xs ih =>
    intro seen y
    simp only [firstDedupAux]
    by_cases hx : x ∈ seen
    · rw [if_pos hx, ih]
      constructor
      · rintro ⟨hy, hns⟩
        exact ⟨List.mem_cons_of_mem _ hy, hns⟩
      · rintro ⟨hy, hns⟩
        rcases List.mem_cons.mp hy with rfl | hy'
        · exact absurd hx hns
        · exact ⟨hy', hns⟩
    · rw [if_neg hx]
      constructor
      · intro hy
        rcases List.mem_cons.mp hy with rfl | hy'
        · exact ⟨List.mem_cons_self _ _, hx⟩
        · have hm := (ih (x :: seen) y).mp hy'
          exact ⟨List.mem_cons_of_mem _ hm.1,
            fun hs => hm.2 (List.mem_cons_of_mem _ hs)⟩
      · rintro ⟨hy, hns⟩
        by_cases hyx : y = x
        · subst hyx
          exact List.mem_cons_self _ _
        · rcases List.mem_cons.mp hy with h1 | h1
          · exact absurd h1 hyx
          · refine List.mem_cons_of_mem _ ((ih (x :: seen) y).mpr ⟨h1, fun hs => ?_⟩)
            rcases List.mem_cons.mp hs with h2 | h2
            · exact hyx h2
            · exact hns h2

theorem mem_firstDedup : ∀ (l : List Str) (y : Str), y ∈ firstDedup l ↔ y ∈ l := by
  intro l y
  rw [firstDedup, mem_firstDedupAux]
  simp

theorem nodup_firstDedupAux : ∀ (l seen : List Str), (firstDedupAux seen l).Nodup := by
  intro l
  induction l with
  | nil => intro seen; simp [firstDedupAux]
  | cons x xs ih =>
    intro seen
    simp only [firstDedupAux]
    by_cases hx : x ∈ seen
    · rw [if_pos hx]
      exact ih seen
    · rw [if_neg hx]
      refine List.nodup_cons.mpr ⟨fun hmem => ?_, ih (x :: seen)⟩
      exact ((mem_firstDedupAux xs (x :: seen) x).mp hmem).2 (List.mem_cons_self _ _)

theorem nodup_firstDedup : ∀ l : List Str, (firstDedup l).Nodup :=
  fun l => nodup_firstDedupAux l []

theorem firstDedupAux_append :
    ∀ (l seen : List Str) (x : Str),
      firstDedupAux seen (l ++ [x]) =
        if x ∈ seen ∨ x ∈ l then firstDedupAux seen l
        else firstDedupAux seen l ++ [x] := by
  intro l
  induction l with
  | nil =>
    intro seen x
    simp only [List.nil_append, firstDedupAux]
    by_cases hx : x ∈ seen
    · simp [hx, firstDedupAux]
    · simp [hx, firstDedupAux]
  | cons y ys ih =>
    intro seen x
    simp only [List.cons_append, firstDedupAux, List.append_eq]
    by_cases hy : y ∈ seen
    · rw [if_pos hy, if_pos hy, ih]
      by_cases hx : x ∈ seen ∨ x ∈ ys
      · rw [if_pos hx, if_pos]
        rcases hx with h | h
        · exact Or.inl h
        · exact Or.inr (List.mem_cons_of_mem _ h)
      · rw [if_neg hx, if_neg]
        rintro (h | h)
        · exact hx (Or.inl h)
        · rcases List.mem_cons.mp h with rfl | h'
          · exact hx (Or.inl hy)
          · exact hx (Or.inr h')
    · rw [if_neg hy, if_neg hy, ih]
      by_cases hx : x ∈ y :: seen ∨ x ∈ ys
      · rw [if_pos hx, if_pos]
        rcases hx with h | h
        · rcases List.mem_cons.mp h with rfl | h'
          · exact Or.inr (List.mem_cons_self _ _)
          · exact Or.inl h'
        · exact Or.inr (List.mem_cons_of_mem _ h)
      · rw [if_neg hx, if_neg]
        · simp
        · rintro (h | h)
          · exact hx (Or.inl (List.mem_cons_of_mem _ h))
          · rcases List.mem_cons.mp h with rfl | h'
            · exact hx (Or.inl (List.mem_cons_self _ _))
            · exact hx (Or.inr h')

theorem firstDedup_append :
    ∀ (l : List Str) (x : Str),
      firstDedup (l ++ [x]) =
        if x ∈ l then firstDedup l else firstDedup l ++ [x] := by
  intro l x
  rw [firstDedup, firstDedup, firstDedupAux_append]
  simp

theorem occOf_append :
    ∀ (cs : List Contribution) (c : Contribution) (k : Str),
      occOf (cs ++ [c]) k =
        occOf cs k ++ (if contribKey c = k then [c] else []) := by
  intro cs c k
  by_cases hk : contribKey c = k
  · simp [occOf, List.filter_append, hk]
  · simp [occOf, List.filter_append, hk]

theorem entryOf_append_ne :
    ∀ (cs : List Contribution) (c : Contribution) (k : Str),
      contribKey c ≠ k → entryOf (cs ++ [c]) k = entryOf cs k := by
  intro cs c k h
  simp [entryOf, occOf_append, h]

theorem occOf_eq_nil :
    ∀ (cs : List Contribution) (c : Contribution),
      contribKey c ∉ cs.map contribKey → occOf cs (contribKey c) = [] := by
  intro cs c h
  refine List.filter_eq_nil_iff.mpr fun d hd => ?_
  simp only [decide_eq_true_eq]
  intro he
  exact h (he ▸ List.mem_map_of_mem contribKey hd)

theorem insertProj_map_mem :
    ∀ (ks : List Str) (cs : List Contribution) (c : Contribution),
      ks.Nodup → contribKey c ∈ ks →
      insertProj c (ks.map (entryOf cs)) = ks.map (entryOf (cs ++ [c])) := by
  intro ks
  induction ks with
  | nil =>
    intro cs c _ h
    simp at h
  | cons k ks' ih =>
    intro cs c hnd hmem
    simp only [List.map_cons, insertProj]
    by_cases hkc : k = contribKey c
    · rw [if_pos (by exact hkc)]
      have hocc : occOf (cs ++ [c]) k = occOf cs k ++ [c] := by
        rw [occOf_append, if_pos hkc.symm]
      have hhead :
          ((entryOf cs k).1, (entryOf cs k).2.1 + 1,
           (entryOf cs k).2.2.1 ++ [c.scenarioHeading],
           if c.specHeading ∈ (entryOf cs k).2.2.2 then (entryOf cs k).2.2.2
           else (entryOf cs k).2.2.2 ++ [c.specHeading]) = entryOf (cs ++ [c]) k := by
        simp only [entryOf, hocc, List.length_append, List.length_cons,
          List.length_nil, List.map_append, List.map_cons, List.map_nil,
          firstDedup_append, mem_firstDedup]
      rw [hhead]
      congr 1
      refine List.map_congr_left fun k' hk' => ?_
      have hne : contribKey c ≠ k' := by
        intro he
        exact (List.nodup_cons.mp hnd).1 ((hkc.trans he) ▸ hk')
      exact (entryOf_append_ne cs c k' hne).symm
    · rw [if_neg (by exact fun he => hkc he)]
      have hmem' : contribKey c ∈ ks' := by
        rcases List.mem_cons.mp hmem with h | h
        · exact absurd h.symm hkc
        · exact h
      rw [ih cs c (List.nodup_cons.mp hnd).2 hmem']
      have hne : contribKey c ≠ k := fun he => hkc he.symm
      rw [entryOf_append_ne cs c k hne]

theorem insertProj_map_not_mem :
    ∀ (ks : List Str) (cs : List Contribution) (c : Contribution),
      contribKey c ∉ ks → occOf cs (contribKey c) = [] →
      insertProj c (ks.map (entryOf cs)) =
        ks.map (entryOf (cs ++ [c])) ++ [entryOf (cs ++ [c]) (contribKey c)] := by
  intro ks
  induction ks with
  | nil =>
    intro cs c _ hocc
    simp only [List.map_nil, insertProj, List.nil_append]
    have hocc' : occOf (cs ++ [c]) (contribKey c) = [c] := by
      rw [occOf_append, if_pos rfl, hocc, List.nil_append]
    simp [entryOf, hocc', firstDedup, firstDedupAux]
  | cons k ks' ih =>
    intro cs c hmem hocc
    simp only [List.map_cons, insertProj]
    have hkc : ¬ (entryOf cs k).1 = contribKey c := by
      intro he
      exact hmem (by
        have : k = contribKey c := he
        rw [this]
        exact List.mem_cons_self _ _)
    rw [if_neg hkc]
    have hmem' : contribKey c ∉ ks' := fun h => hmem (List.mem_cons_of_mem _ h)
    rw [ih cs c hmem' hocc]
    have hne : contribKey c ≠ k := fun he => hkc he.symm
    rw [entryOf_append_ne cs c k hne]
    simp

theorem groupSpec_append :
    ∀ (cs : List Contribution) (c : Contribution),
      groupSpec (cs ++ [c]) = insertProj c (groupSpec cs) := by
  intro cs c
  simp only [groupSpec, List.map_append, List.map_cons, List.map_nil]
  rw [firstDedup_append]
  by_cases hk : contribKey c ∈ cs.map contribKey
  · rw [if_pos hk]
    exact (insertProj_map_mem (firstDedup (cs.map contribKey)) cs c
      (nodup_firstDedup _) ((mem_firstDedup _ _).mpr hk)).symm
  · rw [if_neg hk, List.map_append, List.map_cons, List.map_nil]
    exact (insertProj_map_not_mem (firstDedup (cs.map contribKey)) cs c
      (fun hm => hk ((mem_firstDedup _ _).mp hm)) (occOf_eq_nil cs c hk)).symm

theorem foldl_insertProj_eq_groupSpec :
    ∀ cs : List Contribution,
      cs.foldl (fun ps c => insertProj c ps) [] = groupSpec cs := by
  intro cs
  induction cs using List.reverseRecOn with
  | nil => rfl
  | append_singleton cs c ih =>
    rw [List.foldl_append, List.foldl_cons, List.foldl_nil, ih, groupSpec_append]

theorem processScenario_eq :
    ∀ (a : Analyzer) (specH : Str) (G : List FailureGroup) (sc : ScenarioResult),
      processScenario a specH G sc =
        (match contribOf specH sc with
         | none => G
         | some c => insertContribution a G c) := by
  intro a specH G sc
  by_cases hf : sc.failed = false
  · simp [processScenario, contribOf, hf]
  · by_cases he : (firstFailedStep sc.steps).1 = []
    · simp [processScenario, contribOf, hf, he]
    · simp [processScenario, contribOf, hf, he, insertContribution, contribKey]

theorem foldl_scenarios_eq :
    ∀ (a : Analyzer) (specH : Str) (scs : List ScenarioResult) (G : List FailureGroup),
      scs.foldl (fun gs sc => processScenario a specH gs sc) G =
        (scs.filterMap (contribOf specH)).foldl (insertContribution a) G := by
  intro a specH scs
  induction scs with
  | nil => intro G; rfl
  | cons sc rest ih =>
    intro G
    simp only [List.foldl_cons, List.filterMap_cons]
    rw [processScenario_eq]
    cases hc : contribOf specH sc with
    | none => simp [ih]
    | some c => simp [List.foldl_cons, ih]

theorem foldl_specs_eq :
    ∀ (a : Analyzer) (sps : List SpecResult) (G : List FailureGroup),
      sps.foldl
        (fun gs sp => sp.scenarios.foldl (fun gs' sc => processScenario a sp.specHeading gs' sc) gs)
        G =
        (sps.flatMap (fun sp => sp.scenarios.filterMap (contribOf sp.specHeading))).foldl
          (insertContribution a) G := by
  intro a sps
  induction sps with
  | nil => intro G; rfl
  | cons sp rest ih =>
    intro G
    simp only [List.foldl_cons, List.flatMap_cons, List.foldl_append]
    rw [foldl_scenarios_eq, ih]

theorem buildGroups_eq_foldl :
    ∀ (a : Analyzer) (suite : EnhancedSuiteResult),
      buildGroups a suite = (contributions suite).foldl (insertContribution a) [] := by
  intro a suite
  simp only [buildGroups, contributions]
  exact foldl_specs_eq a suite.specResults []

theorem map_proj_insertContribution :
    ∀ (a : Analyzer) (G : List FailureGroup) (c : Contribution),
      (insertContribution a G c).map proj = insertProj c (G.map proj) := by
  intro a G c
  induction G with
  | nil => rfl
  | cons g gs ih =>
    simp only [insertContribution] at ih ⊢
    by_cases hs : g.signature = contribKey c
    · simp [insertGroup, insertProj, proj, hs]
    · simp [insertGroup, insertProj, proj, hs, ih]

theorem filterMap_get_range {β : Type} :
    ∀ (gs : List FailureGroup) (u : FailureGroup → β),
      (List.range gs.length).filterMap (fun i => (gs.get? i).map u) = gs.map u := by
  intro gs
  induction gs with
  | nil => intro u; rfl
  | cons g t ih =>
    intro u
    rw [List.length_cons, List.range_succ_eq_map, List.filterMap_cons]
    simp only [List.get?_cons_zero, Option.map_some']
    rw [List.filterMap_map]
    simp only [Function.comp_def, Nat.succ_eq_add_one, List.get?_cons_succ, List.map_cons]
    rw [ih]

theorem buildGroups_map_proj :
    ∀ (a : Analyzer) (suite : EnhancedSuiteResult),
      (buildGroups a suite).map proj = groupSpec (contributions suite) := by
  intro a suite
  rw [buildGroups_eq_foldl]
  have hfold : ∀ (cs : List Contribution) (G : List FailureGroup),
      (cs.foldl (insertContribution a) G).map proj =
        cs.foldl (fun ps c => insertProj c ps) (G.map proj) := by
    intro cs
    induction cs with
    | nil => intro G; rfl
    | cons c rest ih =>
      intro G
      simp only [List.foldl_cons]
      rw [ih, map_proj_insertContribution]
  rw [hfold (contributions suite) [], show ([] : List FailureGroup).map proj = [] from rfl]
  exact foldl_insertProj_eq_groupSpec _

/-- C3: under any map iteration order covering all entries, the groups
`GroupFailures` emits correspond (as an unordered collection, projected to
signature, count, affected scenarios and affected specs) exactly to the
spec's description: one group per distinct key of the suite's
contributions — a contribution being the first failed step of each failed
scenario, skipped when its message is empty — with the occurrence count,
every occurrence's scenario heading, and the deduplicated spec headings. -/
theorem C3_grouping_content :
    ∀ (a : Analyzer) (suite : EnhancedSuiteResult) (order : List Nat),
      order.Perm (List.range (buildGroups a suite).length) →
      ((groupFailures a suite order).map proj).Perm (groupSpec (contributions suite)) := by
  intro a suite order hperm
  have h1 : (groupFailures a suite order).map proj =
      order.filterMap (fun i => ((buildGroups a suite).get? i).map proj) := by
    simp only [groupFailures, List.map_filterMap, Option.map_map]
    rfl
  rw [h1]
  have h2 : (order.filterMap (fun i => ((buildGroups a suite).get? i).map proj)).Perm
      ((List.range (buildGroups a suite).length).filterMap
        (fun i => ((buildGroups a suite).get? i).map proj)) :=
    List.Perm.filterMap _ hperm
  rw [filterMap_get_range, buildGroups_map_proj] at h2
  exact h2

/-- Concrete run of C3 on `exSuite` under the reversed iteration order. -/
theorem C3_witness :
    [1, 0].Perm (List.range (buildGroups exAnalyzer exSuite).length) ∧
    ((groupFailures exAnalyzer exSuite [1, 0]).map proj).Perm
      (groupSpec (contributions exSuite)) :=
  ⟨by decide, C3_grouping_content exAnalyzer exSuite [1, 0] (by decide)⟩

/-- C4: the flaky score is 0 below three runs in the window and otherwise
equals `1 - 2*|failureRate - 1/2|`; that formula peaks at 1 for rate 1/2,
vanishes at rates 0 and 1, and decreases as the rate moves away from 1/2;
and `DetectFlakyTests` reports exactly the scenarios whose score exceeds
3/10, carrying a failure-rate percentage within [0, 100]. -/
theorem C4_flaky_score_and_detection :
    (∀ (db : Database) (name : Str) (days : Nat),
      (db.scenarioHistory name days).length < 3 →
      calculateFlakyScore db name days = 0) ∧
    (∀ (db : Database) (name : Str) (days : Nat),
      3 ≤ (db.scenarioHistory name days).length →
      calculateFlakyScore db name days =
        flakyScoreOfRate ((failedRunsIn (db.scenarioHistory name days) : ℚ) /
          ((db.scenarioHistory name days).length : ℚ))) ∧
    flakyScoreOfRate (1/2) = 1 ∧
    flakyScoreOfRate 0 = 0 ∧
    flakyScoreOfRate 1 = 0 ∧
    (∀ r1 r2 : ℚ, |r1 - 1/2| ≤ |r2 - 1/2| → flakyScoreOfRate r2 ≤ flakyScoreOfRate r1) ∧
    (∀ (db : Database) (suite : EnhancedSuiteResult) (t : FlakyTest),
      t ∈ detectFlakyTests (some db) suite →
      3/10 < t.flakyScore ∧ 0 ≤ t.failureRate ∧ t.failureRate ≤ 100) ∧
    (∀ (db : Database) (suite : EnhancedSuiteResult) (sp : SpecResult) (sc : ScenarioResult),
      sp ∈ suite.specResults → sc ∈ sp.scenarios →
      3/10 < calculateFlakyScore db sc.scenarioHeading 30 →
      ∃ t ∈ detectFlakyTests (some db) suite,
        t.scenarioName = sc.scenarioHeading ∧
        t.flakyScore = calculateFlakyScore db sc.scenarioHeading 30) := by
  refine ⟨?_, ?_, ?_, ?_, ?_, ?_, ?_, ?_⟩
  · intro db name days h
    simp [calculateFlakyScore, h]
  · intro db name days h
    have hn : ¬ (db.scenarioHistory name days).length < 3 := by omega
    simp only [calculateFlakyScore, flakyScoreOfRate]
    rw [if_neg hn]
  · unfold flakyScoreOfRate
    norm_num
  · unfold flakyScoreOfRate
    rw [show (0:ℚ) - 1/2 = -(1/2) by ring, abs_neg, abs_of_nonneg (by norm_num)]
    norm_num
  · unfold flakyScoreOfRate
    rw [abs_of_nonneg (by norm_num)]
    norm_num
  · intro r1 r2 h
    unfold flakyScoreOfRate
    linarith
  · intro db suite t ht
    simp only [detectFlakyTests, List.mem_flatMap, List.mem_filterMap] at ht
    obtain ⟨sp, _, sc, _, hmk⟩ := ht
    by_cases hscore : 3/10 < calculateFlakyScore db sc.scenarioHeading 30
    · rw [if_pos hscore] at hmk
      have hrec := Option.some.inj hmk
      refine ⟨?_, ?_, ?_⟩
      · rw [← hrec]
        exact hscore
      · rw [← hrec]
        show 0 ≤ (if 0 < (db.scenarioHistory sc.scenarioHeading 30).length then
          ((failedRunsIn (db.scenarioHistory sc.scenarioHeading 30) : ℚ) /
            ((db.scenarioHistory sc.scenarioHeading 30).length : ℚ)) * 100 else 0)
        split_ifs with hpos
        · have h0 : (0:ℚ) ≤ (failedRunsIn (db.scenarioHistory sc.scenarioHeading 30) : ℚ) /
              ((db.scenarioHistory sc.scenarioHeading 30).length : ℚ) :=
            div_nonneg (Nat.cast_nonneg _) (Nat.cast_nonneg _)
          linarith
        · exact le_refl 0
      · rw [← hrec]
        show (if 0 < (db.scenarioHistory sc.scenarioHeading 30).length then
          ((failedRunsIn (db.scenarioHistory sc.scenarioHeading 30) : ℚ) /
            ((db.scenarioHistory sc.scenarioHeading 30).length : ℚ)) * 100 else 0) ≤ 100
        split_ifs with hpos
        · have hle : (failedRunsIn (db.scenarioHistory sc.scenarioHeading 30) : ℚ) /
              ((db.scenarioHistory sc.scenarioHeading 30).length : ℚ) ≤ 1 := by
            rw [div_le_one (by exact_mod_cast hpos)]
            exact_mod_cast List.length_filter_le _ _
          linarith
        · norm_num
    · rw [if_neg hscore] at hmk
      exact absurd hmk (by simp)
  · intro db suite sp sc hsp hsc hscore
    refine ⟨{ specName := sp.specHeading
              scenarioName := sc.scenarioHeading
              flakyScore := calculateFlakyScore db sc.scenarioHeading 30
              failureRate :=
                if 0 < (db.scenarioHistory sc.scenarioHeading 30).length then
                  ((failedRunsIn (db.scenarioHistory sc.scenarioHeading 30) : ℚ) /
                    ((db.scenarioHistory sc.scenarioHeading 30).length : ℚ)) * 100
                else 0
              occurrences := (db.scenarioHistory sc.scenarioHeading 30).length },
      ?_, rfl, rfl⟩
    simp only [detectFlakyTests, List.mem_flatMap, List.mem_filterMap]
    refine ⟨sp, hsp, sc, hsc, ?_⟩
    rw [if_pos hscore]

/-- Concrete runs of C4: a two-run history scores 0; on a four-run history
with two failures the score is 1 and the scenario is reported flaky. -/
theorem C4_witness :
    (exShortDb.scenarioHistory "x".toList 30).length < 3 ∧
    calculateFlakyScore exShortDb "x".toList 30 = 0 ∧
    (3:ℚ)/10 < calculateFlakyScore exDb exScenario1.scenarioHeading 30 ∧
    (∃ t ∈ detectFlakyTests (some exDb) exSuite,
      t.scenarioName = exScenario1.scenarioHeading ∧
      t.flakyScore = calculateFlakyScore exDb exScenario1.scenarioHeading 30) := by
  have hlen : (exDb.scenarioHistory exScenario1.scenarioHeading 30).length = 4 := by decide
  have hfail : failedRunsIn (exDb.scenarioHistory exScenario1.scenarioHeading 30) = 2 := by
    decide
  have hscore : (3:ℚ)/10 < calculateFlakyScore exDb exScenario1.scenarioHeading 30 := by
    simp only [calculateFlakyScore, hlen, hfail]
    norm_num
  refine ⟨by decide, C4_flaky_score_and_detection.1 exShortDb "x".toList 30 (by decide),
    hscore, C4_flaky_score_and_detection.2.2.2.2.2.2.2 exDb exSuite exSpec exScenario1
      (List.mem_cons_self _ _) (List.mem_cons_self _ _) hscore⟩

end GaugeAI
